import Mathlib

/-!
Verification of the visual_control_board core against its specification.

Shallow embedding of two components:
* `LiveUpdateManager` (src/visual_control_board/live_updates.py): the active
  connection list and the `connect` / `disconnect` / `broadcast_json`
  operations.  WebSocket channels are modelled as natural numbers; whether a
  given channel fails on send is modelled by a boolean-valued function.
* `ActionRegistry` (src/visual_control_board/actions/registry.py): the two
  internal dictionaries, `load_actions`, `get_action` and `execute_action`.
  Python dictionaries are modelled as association lists with
  overwrite-in-place assignment; dynamic import resolution is modelled by an
  environment mapping (module, function) pairs to a resolution outcome.
-/

namespace VCB

/-! ## Live-update manager (live_updates.py) -/

/-- `LiveUpdateManager.connect`: after the handshake the websocket is appended
to `active_connections`. -/
def connect (active : List Nat) (c : Nat) : List Nat :=
  active ++ [c]

/-- `LiveUpdateManager.disconnect`: if the websocket is in
`active_connections` it is removed (Python `list.remove`, which removes the
first occurrence); otherwise only a warning is logged and the list is left
unchanged. -/
def disconnect (active : List Nat) (c : Nat) : List Nat :=
  if c ∈ active then active.erase c else active

/-- The result-inspection loop of `broadcast_json` (live_updates.py lines
63-68).  `results[i]` is an exception exactly when sending to
`active_connections[i]` failed; in that case the code reads
`self.active_connections[i - len(dead_connections)]` — with the *current*
length of `dead_connections`, which grows during this very loop — and appends
that connection to `dead_connections` unless it is already there.  The first
loop (task creation) never raises, because calling an async method only
creates a coroutine, so `dead_connections` is empty when this loop starts. -/
def gatherGo (active : List Nat) (fails : Nat → Bool) :
    Nat → Nat → List Nat → List Nat
  | 0, _, dead => dead
  | fuel + 1, i, dead =>
      let dead2 :=
        if fails (active.getD i 0) then
          let c := active.getD (i - dead.length) 0
          if c ∈ dead then dead else dead ++ [c]
        else dead
      gatherGo active fails fuel (i + 1) dead2

/-- The `dead_connections` list accumulated by `broadcast_json` after the
gather loop has inspected every send result. -/
def deadConnections (active : List Nat) (fails : Nat → Bool) : List Nat :=
  gatherGo active fails active.length 0 []

/-- `LiveUpdateManager.broadcast_json`, state effect: with no active
connections it returns immediately; otherwise every identified dead
connection is removed via `disconnect`. -/
def broadcast_json (active : List Nat) (fails : Nat → Bool) : List Nat :=
  if active.isEmpty then active
  else (deadConnections active fails).foldl disconnect active

/-- The sends issued by `broadcast_json`: one `send_json` task per entry of
`active_connections` (the task-creation loop cannot raise, so every entry
gets exactly one task), unless the active list is empty. -/
def broadcastSends (active : List Nat) : List Nat :=
  if active.isEmpty then [] else active

/-- The channels that actually receive the payload: one delivery per issued
send whose channel does not fail. -/
def broadcastReceives (active : List Nat) (fails : Nat → Bool) : List Nat :=
  (broadcastSends active).filter (fun c => !fails c)

/-! ## Action registry (actions/registry.py)

The registry is polymorphic in `V`, the type of values an action may return
(Python `Any`).  An action function either returns a value or raises; a
raised exception is represented by its `str(e)` rendering, which is all the
registry ever inspects. -/

/-- `config.models.ActionDefinition`: id, module path, function name. -/
structure ActionDefinition where
  id : String
  module : String
  function : String
deriving DecidableEq

/-- `config.models.ActionsConfig`: the list of action definitions. -/
structure ActionsConfig where
  actions : List ActionDefinition
deriving DecidableEq

/-- Keyword parameters passed to an action (`params` expanded as `**params`);
modelled opaquely as string key/value pairs. -/
def Params : Type := List (String × String)

/-- A resolved Python callable: whether `inspect.iscoroutinefunction` holds
for it, and its behaviour on a parameter mapping — either a returned value
or a raised exception rendered by `str`. -/
structure ActionFunc (V : Type) where
  isAsync : Bool
  run : Params → Except String V

/-- Outcome of `importlib.import_module` + `getattr` + the `callable` check
for one (module, function) pair: `ImportError`, `AttributeError`, any other
exception, a non-callable attribute, or a callable. -/
inductive Resolution (V : Type) where
  | importError
  | attrError
  | otherError
  | notCallable
  | resolvedCallable : ActionFunc V → Resolution V

/-- The Python import environment, mapping a module path and function name
to a resolution outcome. -/
def ImportEnv (V : Type) : Type := String → String → Resolution V

/-- Whether a resolution outcome is a callable (the only case in which
`load_actions` registers the definition). -/
def resolvesCallable {V : Type} : Resolution V → Bool
  | Resolution.resolvedCallable _ => true
  | _ => false

/-- Python dict assignment `d[k] = v`: overwrite in place if the key is
present, otherwise append a new entry (insertion order preserved). -/
def dictInsert {α : Type} : List (String × α) → String → α → List (String × α)
  | [], k, v => [(k, v)]
  | p :: t, k, v => if p.1 == k then (k, v) :: t else p :: dictInsert t k v

/-- Python `d.get(k)`: the value at the first (and, with unique keys, only)
entry for `k`, or `None`. -/
def dictGet {α : Type} (d : List (String × α)) (k : String) : Option α :=
  (d.find? (fun p => p.1 == k)).map Prod.snd

/-- `ActionRegistry`: the `_actions` and `_action_definitions` dictionaries. -/
structure ActionRegistry (V : Type) where
  actions : List (String × ActionFunc V)
  actionDefinitions : List (String × ActionDefinition)

/-- `ActionRegistry.__init__`: both dictionaries start empty. -/
def ActionRegistry.init {V : Type} : ActionRegistry V :=
  { actions := [], actionDefinitions := [] }

/-- One iteration of the `load_actions` loop: resolve the definition; on a
callable, store id → callable and id → definition; on any failure
(`ImportError`, `AttributeError`, other exception, not callable) log and
skip, leaving the registry unchanged. -/
def loadStep {V : Type} (env : ImportEnv V) (r : ActionRegistry V)
    (d : ActionDefinition) : ActionRegistry V :=
  match env d.module d.function with
  | Resolution.resolvedCallable f =>
      { actions := dictInsert r.actions d.id f,
        actionDefinitions := dictInsert r.actionDefinitions d.id d }
  | _ => r

/-- `ActionRegistry.load_actions`: if the config is `None` or its action
list is empty, return with the registry untouched; otherwise process each
definition in order.  Note that the existing dictionaries are never
cleared. -/
def load_actions {V : Type} (env : ImportEnv V) (reg : ActionRegistry V)
    (cfg : Option ActionsConfig) : ActionRegistry V :=
  match cfg with
  | none => reg
  | some c =>
      if c.actions.isEmpty then reg
      else c.actions.foldl (loadStep env) reg

/-- `ActionRegistry.get_action`: pure dictionary lookup (the `if not
action_func` logging branch does not change the returned value, since a
function object is never falsy). -/
def get_action {V : Type} (reg : ActionRegistry V) (action_id : String) :
    Option (ActionFunc V) :=
  dictGet reg.actions action_id

/-- Result of `execute_action`: either the value returned by the action, or
the error dictionary `\x7b"status": "error", "error": msg, "message": msg\x7d`
the code builds on the not-found and exception paths, carried here by its
`msg` string.  `execute_action` always returns one of these — it never lets
an exception propagate. -/
inductive ExecResult (V : Type) where
  | value : V → ExecResult V
  | errorDict : String → ExecResult V

/-- A single-quote character, used in the error message strings. -/
def sq : String := String.singleton (Char.ofNat 39)

/-- The `error_msg` built when the action id is not registered. -/
def notFoundMsg (action_id : String) : String :=
  "Action " ++ sq ++ action_id ++ sq ++ " not found in registry. Cannot execute."

/-- The `error_msg` built when the invoked action raises an exception whose
`str` rendering is `cause`. -/
def execErrorMsg (action_id cause : String) : String :=
  "Error during execution of action " ++ sq ++ action_id ++ sq ++ ": " ++ cause

/-- `ActionRegistry.execute_action`: look the action up; if absent return the
not-found error dictionary.  Otherwise default `params` to the empty mapping
and invoke the callable — awaiting it when `inspect.iscoroutinefunction`
holds, calling it directly otherwise; in the embedding the awaited
completion and the direct call both yield the outcome of `run`.  A returned
value is passed through unchanged; a raised exception is caught and turned
into the execution-error dictionary. -/
def execute_action {V : Type} (reg : ActionRegistry V) (action_id : String)
    (params : Option Params) : ExecResult V :=
  match get_action reg action_id with
  | none => ExecResult.errorDict (notFoundMsg action_id)
  | some f =>
      let p := params.getD []
      if f.isAsync then
        match f.run p with
        | Except.ok v => ExecResult.value v
        | Except.error e => ExecResult.errorDict (execErrorMsg action_id e)
      else
        match f.run p with
        | Except.ok v => ExecResult.value v
        | Except.error e => ExecResult.errorDict (execErrorMsg action_id e)

/-- The two dictionaries of a registry have the same key set. -/
def sameKeys {V : Type} (reg : ActionRegistry V) : Prop :=
  ∀ k, (dictGet reg.actions k).isSome = (dictGet reg.actionDefinitions k).isSome

/-- A registry operation, for stating reachability invariants.  `get` and
`execute` return values but leave the registry state untouched (the Python
methods assign no attribute), so they act as the identity on the state. -/
inductive RegistryOp (V : Type) where
  | load : ImportEnv V → Option ActionsConfig → RegistryOp V
  | get : String → RegistryOp V
  | execute : String → Option Params → RegistryOp V

/-- Apply one registry operation to the registry state. -/
def applyOp {V : Type} (reg : ActionRegistry V) : RegistryOp V → ActionRegistry V
  | RegistryOp.load env cfg => load_actions env reg cfg
  | RegistryOp.get _ => reg
  | RegistryOp.execute _ _ => reg

/-- The registry state reached from construction (`__init__`) by a sequence
of operations. -/
def applyOps {V : Type} (ops : List (RegistryOp V)) : ActionRegistry V :=
  ops.foldl applyOp ActionRegistry.init

/-- The ids a given `load_actions` call registers: those carried by a
definition in the config whose module and function resolve to a callable. -/
def cfgRegisters {V : Type} (env : ImportEnv V) (cfg : Option ActionsConfig)
    (id : String) : Bool :=
  match cfg with
  | none => false
  | some c => c.actions.any (fun d => d.id == id && resolvesCallable (env d.module d.function))

/-! ### Concrete material for witnesses and counterexamples -/

/-- An import environment in which every (module, function) pair resolves to
a synchronous callable returning 0. -/
def envAll : ImportEnv Nat :=
  fun _ _ => Resolution.resolvedCallable { isAsync := false, run := fun _ => Except.ok 0 }

/-- A synchronous action that always raises an exception rendered "boom". -/
def syncBoom : ActionFunc Nat :=
  { isAsync := false, run := fun _ => Except.error "boom" }

/-- An asynchronous action that always completes with the value 7. -/
def asyncSeven : ActionFunc Nat :=
  { isAsync := true, run := fun _ => Except.ok 7 }

/-- A concrete registry holding `syncBoom` under id "sb" and `asyncSeven`
under id "as". -/
def regDemo : ActionRegistry Nat :=
  { actions := [("sb", syncBoom), ("as", asyncSeven)],
    actionDefinitions :=
      [("sb", { id := "sb", module := "m", function := "f" }),
       ("as", { id := "as", module := "m", function := "g" })] }

/-- The registry obtained by loading first a definition with id "a", then —
on the same instance — a definition with id "b", in `envAll`. -/
def regTwoLoads : ActionRegistry Nat :=
  load_actions envAll
    (load_actions envAll ActionRegistry.init
      (some { actions := [{ id := "a", module := "m", function := "f" }] }))
    (some { actions := [{ id := "b", module := "m", function := "g" }] })

/-! ## Live-update claims -/

/-- C1 (code bug evidence): the claim says that after `broadcast` with
channels `[0, 1, 2]` where sends to 0 and 2 fail and the send to 1 succeeds,
the active set should be `[1]` (all failing channels removed, the succeeding
one kept).  The code instead ends with active set `[2]`: the index
adjustment `active_connections[i - len(dead_connections)]` in the gather loop
uses the length of a list that grows during that loop, so the succeeding
channel 1 is pruned and the failing channel 2 is kept.  Delivery itself is
correct: exactly the non-failing channel 1 receives the payload once. -/
theorem broadcast_two_failures_wrong_pruning :
    broadcast_json [0, 1, 2] (fun n => n == 0 || n == 2) = [2] ∧
    broadcastReceives [0, 1, 2] (fun n => n == 0 || n == 2) = [1] := by
  constructor <;> rfl

/-- C3: `connect(c)` followed immediately by `disconnect(c)` leaves the
active set — the multiset of currently connected channels, the spec calls it
a set with no meaningful ordering among entries — unchanged from before the
`connect` call: `connect` appends one entry for `c` and `disconnect` removes
exactly one entry for `c` (the first occurrence). -/
theorem connect_disconnect_roundtrip (active : List Nat) (c : Nat) :
    (disconnect (connect active c) c : Multiset Nat) = (active : Multiset Nat) := by
  have hmem : c ∈ connect active c := by simp [connect]
  have hperm : (connect active c).Perm (c :: active) :=
    List.perm_append_singleton c active
  have h2 : ((connect active c).erase c).Perm ((c :: active).erase c) :=
    hperm.erase c
  rw [List.erase_cons_head] at h2
  unfold disconnect
  rw [if_pos hmem]
  exact Multiset.coe_eq_coe.mpr h2

/-- C8: `disconnect` on a channel not in the active set leaves the active
set exactly as it was.  It also does not raise: the code guards
`list.remove` with a membership test (and the embedding is a total
function), only logging a warning in the absent case. -/
theorem disconnect_absent_noop (active : List Nat) (c : Nat) (h : c ∉ active) :
    disconnect active c = active := by
  unfold disconnect
  rw [if_neg h]

/-- Witness for C8 at a concrete input: channel 5 is absent from `[1, 2]`
and disconnecting it returns `[1, 2]` unchanged. -/
theorem disconnect_absent_noop_witness :
    5 ∉ [1, 2] ∧ disconnect [1, 2] 5 = [1, 2] :=
  ⟨by decide, disconnect_absent_noop [1, 2] 5 (by decide)⟩

/-- C10: connecting the same channel twice (starting from a state not
containing it, with no intervening disconnect) leaves two entries for it in
the active set; a single broadcast then issues one send per entry, so a
channel whose sends succeed receives the payload twice; and one `disconnect`
call removes only one of the two entries, leaving one. -/
theorem duplicate_connect_double_delivery (active : List Nat) (c : Nat)
    (fails : Nat → Bool) (hnotin : c ∉ active) (hok : fails c = false) :
    (connect (connect active c) c).count c = 2
    ∧ (broadcastReceives (connect (connect active c) c) fails).count c = 2
    ∧ (disconnect (connect (connect active c) c) c).count c = 1 := by
  have hcnt : (connect (connect active c) c).count c = 2 := by
    simp [connect, List.count_append, List.count_eq_zero.mpr hnotin]
  have hne : (connect (connect active c) c).isEmpty = false := by
    simp [connect]
  have hmem : c ∈ connect (connect active c) c := by simp [connect]
  refine ⟨hcnt, ?_, ?_⟩
  · have hfc : ((connect (connect active c) c).filter (fun x => !fails x)).count c
        = (connect (connect active c) c).count c :=
      List.count_filter (by simp [hok])
    rw [broadcastReceives, broadcastSends, hne]
    simpa [hfc] using hcnt
  · rw [disconnect, if_pos hmem, List.count_erase_self, hcnt]

/-- Witness for C10 at a concrete input: channel 7, starting from an empty
active set, with sends that never fail. -/
theorem duplicate_connect_double_delivery_witness :
    (connect (connect [] 7) 7).count 7 = 2
    ∧ (broadcastReceives (connect (connect [] 7) 7) (fun _ => false)).count 7 = 2
    ∧ (disconnect (connect (connect [] 7) 7) 7).count 7 = 1 :=
  duplicate_connect_double_delivery [] 7 (fun _ => false) (by decide) rfl

/-! ## Registry helper lemmas -/

/-- Lookup in a non-empty dictionary inspects the head entry first. -/
theorem dictGet_cons {α : Type} (p : String × α) (t : List (String × α)) (k : String) :
    dictGet (p :: t) k = if p.1 == k then some p.2 else dictGet t k := by
  by_cases h : p.1 == k <;> simp [dictGet, List.find?_cons, h]

/-- After `d[k] = v`, looking up `k` yields `v`. -/
theorem dictGet_dictInsert_self {α : Type} (d : List (String × α)) (k : String) (v : α) :
    dictGet (dictInsert d k v) k = some v := by
  induction d with
  | nil => simp [dictInsert, dictGet_cons]
  | cons p t ih =>
      by_cases h : p.1 == k
      · simp [dictInsert, h, dictGet_cons]
      · simp [dictInsert, h, dictGet_cons, ih]

/-- After `d[k] = v`, lookups of other keys are unaffected. -/
theorem dictGet_dictInsert_ne {α : Type} (d : List (String × α)) (k k2 : String)
    (v : α) (h : k2 ≠ k) :
    dictGet (dictInsert d k v) k2 = dictGet d k2 := by
  have hbeq : (k == k2) = false := beq_eq_false_iff_ne.mpr (Ne.symm h)
  induction d with
  | nil => simp [dictInsert, dictGet_cons, hbeq, dictGet]
  | cons p t ih =>
      by_cases hp : p.1 == k
      · have hpk : p.1 = k := by simpa using hp
        simp [dictInsert, hp, dictGet_cons, hpk, hbeq]
      · simp [dictInsert, hp, dictGet_cons, ih]

/-- Key-presence after an assignment: the assigned key plus the old keys. -/
theorem isSome_dictGet_dictInsert {α : Type} (d : List (String × α)) (k k2 : String)
    (v : α) :
    (dictGet (dictInsert d k v) k2).isSome = ((k == k2) || (dictGet d k2).isSome) := by
  by_cases h : k2 = k
  · subst h
    simp [dictGet_dictInsert_self]
  · have hbeq : (k == k2) = false := beq_eq_false_iff_ne.mpr (Ne.symm h)
    rw [dictGet_dictInsert_ne d k k2 v h, hbeq, Bool.false_or]

/-- Key-presence after the `load_actions` loop over a definition list: the
old keys plus the ids of resolving definitions.  In particular a definition
that fails to resolve neither contributes a key nor stops later definitions
from contributing theirs. -/
theorem isSome_get_loadFold {V : Type} (env : ImportEnv V) (defs : List ActionDefinition) :
    ∀ (reg : ActionRegistry V) (id : String),
    (dictGet ((defs.foldl (loadStep env) reg).actions) id).isSome
      = ((dictGet reg.actions id).isSome
          || defs.any (fun d => d.id == id && resolvesCallable (env d.module d.function))) := by
  induction defs with
  | nil =>
      intro reg id
      simp
  | cons d t ih =>
      intro reg id
      rw [List.foldl_cons, ih]
      cases henv : env d.module d.function <;>
        simp [loadStep, henv, resolvesCallable, isSome_dictGet_dictInsert,
              Bool.or_assoc, Bool.or_comm, Bool.or_left_comm]

/-- Key-presence after any `load_actions` call: every previously registered
id remains present, and the ids registered by this call are added. -/
theorem isSome_get_load {V : Type} (env : ImportEnv V) (reg : ActionRegistry V)
    (cfg : Option ActionsConfig) (id : String) :
    (get_action (load_actions env reg cfg) id).isSome
      = ((get_action reg id).isSome || cfgRegisters env cfg id) := by
  cases cfg with
  | none => simp [load_actions, cfgRegisters]
  | some c =>
      by_cases he : c.actions.isEmpty
      · have hnil : c.actions = [] := by simpa [List.isEmpty_iff] using he
        simp [load_actions, he, cfgRegisters, hnil]
      · simp only [load_actions, cfgRegisters, get_action]
        rw [if_neg he, isSome_get_loadFold]

/-- One `load_actions` loop iteration inserts into both dictionaries under
the same key, or into neither, so it preserves key-set equality. -/
theorem sameKeys_loadStep {V : Type} (env : ImportEnv V) (r : ActionRegistry V)
    (d : ActionDefinition) (h : sameKeys r) : sameKeys (loadStep env r d) := by
  intro k
  cases henv : env d.module d.function <;>
    simp [loadStep, henv, isSome_dictGet_dictInsert, h k]

/-- The whole `load_actions` loop preserves key-set equality. -/
theorem sameKeys_foldl {V : Type} (env : ImportEnv V) (defs : List ActionDefinition) :
    ∀ reg : ActionRegistry V, sameKeys reg → sameKeys (defs.foldl (loadStep env) reg) := by
  induction defs with
  | nil => intro reg h; simpa using h
  | cons d t ih =>
      intro reg h
      rw [List.foldl_cons]
      exact ih _ (sameKeys_loadStep env reg d h)

/-- `load_actions` preserves key-set equality of the two dictionaries. -/
theorem sameKeys_load {V : Type} (env : ImportEnv V) (reg : ActionRegistry V)
    (cfg : Option ActionsConfig) (h : sameKeys reg) :
    sameKeys (load_actions env reg cfg) := by
  cases cfg with
  | none => exact h
  | some c =>
      rw [load_actions]
      by_cases he : c.actions.isEmpty
      · rw [if_pos he]; exact h
      · rw [if_neg he]; exact sameKeys_foldl env c.actions reg h

/-- Any operation sequence preserves key-set equality. -/
theorem sameKeys_applyOps_aux {V : Type} (ops : List (RegistryOp V)) :
    ∀ reg : ActionRegistry V, sameKeys reg → sameKeys (ops.foldl applyOp reg) := by
  induction ops with
  | nil => intro reg h; simpa using h
  | cons op t ih =>
      intro reg h
      rw [List.foldl_cons]
      cases op with
      | load env cfg => exact ih _ (sameKeys_load env reg cfg h)
      | get a => exact ih _ h
      | execute a p => exact ih _ h

/-! ## Registry claims -/

/-- C2 counterexample: loading `[(id "a")]` into a fresh registry and then
loading `[(id "b")]` on the same instance — in an environment where every
definition resolves — leaves id "a" retrievable via `get_action`, although it
was registered only by the first load.  This refutes the claim that a second
`load` replaces the registry contents: `load_actions` never clears the
dictionaries it fills. -/
theorem load_twice_keeps_first_counterexample :
    (get_action regTwoLoads "a").isSome = true := rfl

/-- C2 amended: calling `load` a second time merges rather than replaces:
the ids registered after the second call are exactly the ids already
retrievable after the first load plus the ids resolved from the second list;
in particular every id registered only by the first load remains
retrievable. -/
theorem load_twice_merges {V : Type} (env : ImportEnv V) (reg : ActionRegistry V)
    (cfg1 cfg2 : Option ActionsConfig) (id : String) :
    (get_action (load_actions env (load_actions env reg cfg1) cfg2) id).isSome
      = ((get_action (load_actions env reg cfg1) id).isSome || cfgRegisters env cfg2 id) :=
  isSome_get_load env (load_actions env reg cfg1) cfg2 id

/-- C4: `execute_action` on an id with no registered callable returns the
structured not-found error dictionary, for any params.  It never raises: the
embedding of `execute_action` is a total function into `ExecResult`, because
the code converts both failure paths into returned dictionaries. -/
theorem execute_absent_not_found {V : Type} (reg : ActionRegistry V)
    (action_id : String) (params : Option Params)
    (h : get_action reg action_id = none) :
    execute_action reg action_id params = ExecResult.errorDict (notFoundMsg action_id) := by
  simp [execute_action, h]

/-- Witness for C4: executing the never-loaded id "missing" on a freshly
constructed registry yields the not-found error dictionary. -/
theorem execute_absent_not_found_witness :
    execute_action (ActionRegistry.init : ActionRegistry Nat) "missing" none
      = ExecResult.errorDict (notFoundMsg "missing") :=
  execute_absent_not_found ActionRegistry.init "missing" none rfl

/-- C5: `execute_action` on a registered synchronous action that raises an
exception rendered `e` returns the structured execution-error dictionary,
whose message contains `str(e)` (it ends with it); the exception never
propagates, `execute_action` being total into `ExecResult`. -/
theorem execute_sync_raise_execution_error {V : Type} (reg : ActionRegistry V)
    (action_id : String) (params : Option Params) (f : ActionFunc V) (e : String)
    (hget : get_action reg action_id = some f) (hsync : f.isAsync = false)
    (hrun : f.run (params.getD []) = Except.error e) :
    execute_action reg action_id params = ExecResult.errorDict (execErrorMsg action_id e)
    ∧ ∃ s, execErrorMsg action_id e = s ++ e := by
  constructor
  · simp [execute_action, hget, hsync, hrun]
  · exact ⟨"Error during execution of action " ++ sq ++ action_id ++ sq ++ ": ", rfl⟩

/-- Witness for C5: the synchronous action "sb" of `regDemo` raises "boom";
executing it yields the execution-error dictionary containing "boom". -/
theorem execute_sync_raise_execution_error_witness :
    execute_action regDemo "sb" none = ExecResult.errorDict (execErrorMsg "sb" "boom")
    ∧ ∃ s, execErrorMsg "sb" "boom" = s ++ "boom" :=
  execute_sync_raise_execution_error regDemo "sb" none syncBoom "boom" rfl rfl rfl

/-- C7: `execute_action` on a registered asynchronous action that completes
with value `v` returns `v` unchanged.  The suspension of the caller is the
`await` on the coroutine, modelled by the result of `execute_action` being
defined from the completed outcome of `run`. -/
theorem execute_async_returns_value {V : Type} (reg : ActionRegistry V)
    (action_id : String) (params : Option Params) (f : ActionFunc V) (v : V)
    (hget : get_action reg action_id = some f) (hasync : f.isAsync = true)
    (hrun : f.run (params.getD []) = Except.ok v) :
    execute_action reg action_id params = ExecResult.value v := by
  simp [execute_action, hget, hasync, hrun]

/-- Witness for C7: the asynchronous action "as" of `regDemo` completes with
7; executing it returns 7. -/
theorem execute_async_returns_value_witness :
    execute_action regDemo "as" (some []) = ExecResult.value 7 :=
  execute_async_returns_value regDemo "as" (some []) asyncSeven 7 rfl rfl rfl

/-- C6: after loading a definition list into a fresh registry, `get_action`
returns a callable exactly for the ids carried by a definition whose module
and function resolve to a callable, and returns `None` for every other id;
the boolean characterization also shows that one definition failing to
resolve does not prevent the remaining definitions from being loaded. -/
theorem get_after_load_iff_resolves {V : Type} (env : ImportEnv V)
    (defs : List ActionDefinition) (id : String) :
    (get_action (load_actions env ActionRegistry.init (some { actions := defs })) id).isSome
      = defs.any (fun d => d.id == id && resolvesCallable (env d.module d.function)) := by
  rw [isSome_get_load]
  simp [get_action, ActionRegistry.init, dictGet, cfgRegisters]

/-- C9: after every sequence of registry operations starting from
construction — `load`, and `get` / `execute`, which return values without
mutating the registry — the `_actions` and `_action_definitions`
dictionaries have the same key set. -/
theorem registry_tables_same_keys {V : Type} (ops : List (RegistryOp V)) :
    sameKeys (applyOps ops) :=
  sameKeys_applyOps_aux ops ActionRegistry.init (fun _ => rfl)

end VCB
